import Mathlib

/-!
Verification development for the `django_audit_logger` request/response
audit-capture pipeline.

The definitions below are a shallow embedding of the Python sources:
`src/django_audit_logger/middleware.py` (RequestLogMiddleware),
`src/django_audit_logger/tasks.py` (create_request_log_entry) and
`src/django_audit_logger/models.py` (RequestLog).  Python dicts with string
keys become ordered association lists, Python exceptions become an explicit
exception type carried by `Except`, and the fallible environment (downstream
handler outcome, store reachability, failures inside capture/dispatch steps)
is passed in as explicit parameters.  Repository files that are referenced by
the middleware but are not present under `src/` (utils.py, email_utils.py,
mongo_storage.py) are modelled from the specification; each such definition
carries a doc comment starting with `Modelled from the spec:`.
-/

namespace AuditLogger

/-- Python exception classes that occur in the embedded code paths.
`jsonDecodeError` is `json.JSONDecodeError` (a subclass of `ValueError` in
Python, which is why it is caught by `except ValueError` clauses);
`operationalError` and `integrityError` are Django database errors (raised on
an unreachable store resp. a constraint violation), which are *not*
subclasses of any of `ValueError`/`TypeError`/`AttributeError`/`KeyError`. -/
inductive PyExc where
  | typeError
  | valueError
  | attributeError
  | keyError
  | jsonDecodeError
  | operationalError
  | integrityError
  | doesNotExist
  | multipleObjectsReturned
  | other (tag : String)
deriving DecidableEq, Repr

/-- A Python `dict` with string keys and string values, as an ordered
association list (insertion order, no duplicate keys assumed by the code). -/
abbrev Dict := List (String × String)

/-- Python `k in d` for a dict. -/
def dictMem (d : Dict) (k : String) : Bool :=
  d.any (fun kv => kv.1 == k)

/-- Python `d[k] = v`: update in place when the key exists, append otherwise. -/
def dictSet (d : Dict) (k v : String) : Dict :=
  if dictMem d k then d.map (fun kv => if kv.1 == k then (k, v) else kv)
  else d ++ [(k, v)]

/-- Python `d.get(k)` as an `Option`. -/
def dictGet (d : Dict) (k : String) : Option String :=
  (d.find? (fun kv => kv.1 == k)).map (·.2)

/-- The literal mask token written by every masking path (`'********'`). -/
def maskToken : String := "********"

/-- Python `str.lower()`, character-wise over the string's characters (the
case mapping exercised by header names and configured field names). -/
def py_lower (s : String) : String :=
  String.mk (s.data.map Char.toLower)

/-- Python `str.startswith`. -/
def py_startswith (s pre : String) : Bool :=
  pre.data.isPrefixOf s.data

/-- Python `str.endswith`. -/
def py_endswith (s suf : String) : Bool :=
  suf.data.isSuffixOf s.data

/-- Case-insensitive match of a key against a configured sensitive-field set
(the spec's MaskingRule set is case-insensitive). -/
def isSensitive (keys : List String) (k : String) : Bool :=
  keys.any (fun f => py_lower f == py_lower k)

/-! ### JSON values and `json.dumps`

The middleware re-serializes parsed JSON bodies with `json.dumps` before
masking, and the form-data path serializes a masked dict with `json.dumps`.
`JValue` is the parsed JSON value; `jsonDumps` is the printer with Python's
default separators (`', '` between items and `': '` after keys). -/

inductive JValue where
  | null
  | bool (b : Bool)
  | num (n : Int)
  | str (s : String)
  | arr (xs : List JValue)
  | obj (fields : List (String × JValue))

/-- JSON string escaping for the characters exercised by the embedding
(backslash, quote and the common control characters). -/
def escapeJsonChar (c : Char) : List Char :=
  if c = '"' then ['\\', '"']
  else if c = '\\' then ['\\', '\\']
  else if c = '\n' then ['\\', 'n']
  else if c = '\t' then ['\\', 't']
  else if c = '\r' then ['\\', 'r']
  else [c]

def escapeJsonString (s : String) : String :=
  String.mk ((s.data.map escapeJsonChar).flatten)

mutual

/-- Python `json.dumps` on a parsed JSON value (default separators). -/
def jsonDumps : JValue → String
  | .null => "null"
  | .bool true => "true"
  | .bool false => "false"
  | .num n => toString n
  | .str s => "\"" ++ escapeJsonString s ++ "\""
  | .arr xs => "[" ++ String.intercalate ", " (jsonDumpsList xs) ++ "]"
  | .obj fs => "\x7b" ++ String.intercalate ", " (jsonDumpsFields fs) ++ "\x7d"

def jsonDumpsList : List JValue → List String
  | [] => []
  | x :: xs => jsonDumps x :: jsonDumpsList xs

def jsonDumpsFields : List (String × JValue) → List String
  | [] => []
  | kv :: fs => ("\"" ++ escapeJsonString kv.1 ++ "\": " ++ jsonDumps kv.2) :: jsonDumpsFields fs

end

/-- `json.dumps` of a flat string-valued dict. -/
def jsonDumpsDict (d : Dict) : String :=
  jsonDumps (.obj (d.map fun kv => (kv.1, .str kv.2)))

/-! ### The Masking Engine (modelled from the spec)

`utils.mask_sensitive_data` is imported by the middleware but `utils.py` is
not under `src/`.  The engine is therefore modelled from spec §4.1: a
structured payload is walked recursively up to a depth bound, replacing the
value of any mapping key that matches a sensitive key case-insensitively by
the mask token; a raw-text payload is scanned heuristically for `key=value`
segments (form style, separated by `'&'`) and for whole `"key":"value"`
segments (JSON style), replacing the value portion on a case-insensitive key
match and passing unmatched text through unchanged. -/

/-- Modelled from the spec: structured masking (§4.1).  Recursively walk
mapping/array nodes up to the depth bound `fuel`; a mapping entry whose key
matches a sensitive key gets the mask token as value, other entries are
recursed into; when the bound is exhausted the branch is left unchanged. -/
def maskJson (keys : List String) : Nat → JValue → JValue
  | 0, v => v
  | fuel + 1, v =>
    match v with
    | .obj fs =>
        .obj (fs.map fun kv =>
          if isSensitive keys kv.1 then (kv.1, .str maskToken)
          else (kv.1, maskJson keys fuel kv.2))
    | .arr xs => .arr (xs.map (maskJson keys fuel))
    | leaf => leaf

/-- First occurrence split: `splitFirst sep cs = some (k, v)` iff
`cs = k ++ sep :: v` with `sep` not occurring in `k` (Python
`cs.split(sep, 1)` when the separator occurs). -/
def splitFirst (sep : Char) : List Char → Option (List Char × List Char)
  | [] => none
  | c :: cs =>
    if c = sep then some ([], cs)
    else
      match splitFirst sep cs with
      | none => none
      | some (k, v) => some (c :: k, v)

/-- Python `str.split(sep)` on character lists. -/
def splitOnChar (sep : Char) : List Char → List (List Char)
  | [] => [[]]
  | c :: cs =>
    if c = sep then [] :: splitOnChar sep cs
    else
      match splitOnChar sep cs with
      | [] => [[c]]
      | p :: ps => (c :: p) :: ps

/-- Python `sep.join` on character lists. -/
def joinChar (sep : Char) : List (List Char) → List Char
  | [] => []
  | [p] => p
  | p :: q :: ps => p ++ sep :: joinChar sep (q :: ps)

/-- The character form of a whole `"key":"value"` segment. -/
def jsonPairChars (k v : List Char) : List Char :=
  '"' :: k ++ '"' :: ':' :: '"' :: v ++ ['"']

/-- After the key of a `"key":"value"` segment: expect `':'` and an opening
quote, then the value up to a closing quote that ends the segment. -/
def parseJsonTail (k : List Char) : List Char → Option (List Char × List Char)
  | [] => none
  | [_] => none
  | c1 :: c2 :: rest2 =>
    if c1 = ':' ∧ c2 = '"' then
      match splitFirst '"' rest2 with
      | none => none
      | some (v, tail) => if tail = [] then some (k, v) else none
    else none

/-- Recognize a segment that is exactly `"key":"value"`. -/
def parseJsonPair : List Char → Option (List Char × List Char)
  | [] => none
  | c :: rest =>
    if c = '"' then
      match splitFirst '"' rest with
      | none => none
      | some (k, rest1) => parseJsonTail k rest1
    else none

/-- Modelled from the spec: mask one raw-text segment.  A `key=value` segment
(split at the first `'='`) has its value replaced when the key is sensitive;
otherwise a whole `"key":"value"` segment is masked on a key match; any other
segment passes through unchanged (best effort, never fails). -/
def maskSegment (keys : List String) (p : List Char) : List Char :=
  match splitFirst '=' p with
  | some (k, _) =>
    if isSensitive keys (String.mk k) then k ++ '=' :: maskToken.data else p
  | none =>
    match parseJsonPair p with
    | some (k, _) =>
      if isSensitive keys (String.mk k) then jsonPairChars k maskToken.data else p
    | none => p

/-- Modelled from the spec: raw-text masking (§4.1) over the characters of the
payload: split on `'&'`, mask each segment, rejoin. -/
def maskRawChars (keys : List String) (cs : List Char) : List Char :=
  joinChar '&' ((splitOnChar '&' cs).map (maskSegment keys))

/-- Modelled from the spec: the Masking Engine's raw-text path on a string
payload. -/
def mask_raw (keys : List String) (s : String) : String :=
  String.mk (maskRawChars keys s.data)

/-- Modelled from the spec: `utils.mask_sensitive_data` (utils.py is not under
`src/`).  The middleware always passes an already-serialized string, so per
§4.1 the raw-text path of the Masking Engine applies. -/
def mask_sensitive_data (keys : List String) (s : String) : String :=
  mask_raw keys s

/-- A Masking Engine payload: a structured mapping/array value or raw text
(spec §4.1). -/
inductive Payload where
  | structured (v : JValue)
  | raw (s : String)

/-- Modelled from the spec: the Masking Engine contract
`mask(payload, sensitiveKeys) -> payload'` (§4.1), with the structured path
bounded by the depth bound `depth`. -/
def mask (keys : List String) (depth : Nat) : Payload → Payload
  | .structured v => .structured (maskJson keys depth v)
  | .raw s => .raw (mask_raw keys s)

/-! ### The Capture Extractor (middleware.py) -/

/-- Middleware configuration; the defaults are the ones assigned in
`RequestLogMiddleware.__init__` (middleware.py lines 31-50, including
`AUDIT_LOGS_ASYNC_LOGGING` defaulting to `True`). -/
structure Config where
  sensitive_fields : List String :=
    ["password", "token", "access", "refresh", "secret", "passwd", "authorization", "api_key"]
  exclude_paths : List String := ["/admin/jsi18n/", "/static/", "/media/"]
  exclude_extensions : List String := [".css", ".js", ".ico", ".jpg", ".png", ".gif", ".svg"]
  max_body_length : Nat := 8192
  use_async_logging : Bool := true

/-- The inbound Django request as the middleware observes it.  `headers` is
`dict(request.headers.items())` exactly as presented by the framework (Django
presents header names in title case, e.g. `Authorization`).  `jsonBody` is
the outcome of `json.loads(request.body)` (`none` on a parse failure),
`post_dict` the outcome of `request.POST.dict()` (`none` when that call
raises), and `body` the `utf-8`-lossy decoding of the raw body. -/
structure Request where
  method : String
  path : String
  query_params : Dict
  headers : Dict
  body : String
  jsonBody : Option JValue
  post_dict : Option Dict
  content_type : String
  /-- Modelled from the spec: the result of `utils.get_client_ip(request)`
  (utils.py is not under `src/`); the client IP extracted from the request. -/
  client_ip : String
  user_id : Option String

/-- The outgoing Django response. `content` is the decoded `response.content`
(`none` when the attribute is absent, e.g. a streaming response), and
`jsonContent` the outcome of `json.loads` on it. -/
structure Response where
  status_code : Nat
  headers : Dict
  content : Option String
  jsonContent : Option JValue

/-- The header-masking loop shared by `_capture_request_data` (lines 112-115)
and `_capture_response_data` (lines 174-177):
`for field in sensitive_fields: if field.lower() in headers:
headers[field.lower()] = '********'`. -/
def mask_headers (keys : List String) (headers : Dict) : Dict :=
  keys.foldl
    (fun h field => if dictMem h (py_lower field) then dictSet h (py_lower field) maskToken else h)
    headers

/-- The in-dict masking loop of the form-data branch (lines 138-140):
`for field in sensitive_fields: if field in body: body[field] = '********'`
(exact key match, no lower-casing). -/
def maskFormDict (keys : List String) (body : Dict) : Dict :=
  keys.foldl
    (fun b field => if dictMem b field then dictSet b field maskToken else b)
    body

/-- The fixed truncation marker appended by both capture methods
(`'... [truncated]'`, lines 153 and 197). -/
def truncation_marker : String := "... [truncated]"

/-- Body truncation (lines 151-153, 195-197): if the (already masked) body is
longer than the configured maximum, keep the first `max_body_length`
characters and append the marker. -/
def truncate_body (max_body_length : Nat) (body : String) : String :=
  if body.length > max_body_length then
    String.mk (body.data.take max_body_length) ++ truncation_marker
  else body

/-- The request-body capture dispatch of `_capture_request_data`
(lines 117-148), producing the masked-but-not-yet-truncated body:
only for POST/PUT/PATCH; JSON content is parsed, re-serialized and masked
(falling back to masking the raw decoded body on a parse failure); other
content takes `request.POST.dict()`, masks it in place and serializes it
(falling back to masking the raw decoded body when that raises). -/
def masked_request_body (cfg : Config) (req : Request) : Option String :=
  if req.method = "POST" ∨ req.method = "PUT" ∨ req.method = "PATCH" then
    some
      (if req.content_type = "application/json" then
        match req.jsonBody with
        | some body => mask_sensitive_data cfg.sensitive_fields (jsonDumps body)
        | none => mask_sensitive_data cfg.sensitive_fields req.body
      else
        match req.post_dict with
        | some body => jsonDumpsDict (maskFormDict cfg.sensitive_fields body)
        | none => mask_sensitive_data cfg.sensitive_fields req.body)
  else none

/-- The captured request snapshot (`request_data` dict). -/
structure RequestData where
  method : String
  path : String
  query_params : Dict
  headers : Dict
  client_ip : String
  body : Option String

/-- `RequestLogMiddleware._capture_request_data` (lines 92-155). -/
def _capture_request_data (cfg : Config) (req : Request) : RequestData :=
  { method := req.method
    path := req.path
    query_params := req.query_params
    headers := mask_headers cfg.sensitive_fields req.headers
    client_ip := req.client_ip
    body := (masked_request_body cfg req).map (truncate_body cfg.max_body_length) }

/-- The response-content capture dispatch of `_capture_response_data`
(lines 179-199): the masked-but-not-yet-truncated content, when the response
has a `content` attribute. -/
def masked_response_content (cfg : Config) (resp : Response) : Option String :=
  resp.content.map fun content =>
    match resp.jsonContent with
    | some j => mask_sensitive_data cfg.sensitive_fields (jsonDumps j)
    | none => mask_sensitive_data cfg.sensitive_fields content

/-- The captured response snapshot (`response_data` dict). -/
structure ResponseData where
  status_code : Nat
  headers : Dict
  content : Option String

/-- `RequestLogMiddleware._capture_response_data` (lines 157-201). -/
def _capture_response_data (cfg : Config) (resp : Response) : ResponseData :=
  { status_code := resp.status_code
    headers := mask_headers cfg.sensitive_fields resp.headers
    content := (masked_response_content cfg resp).map (truncate_body cfg.max_body_length) }

/-! ### The Audit Record Store schema (models.py) and Django `create` -/

/-- The field names of the `RequestLog` model (models.py lines 10-36). -/
def requestLogFields : List String :=
  ["timestamp", "method", "path", "query_params", "headers", "body", "content_type",
   "status_code", "response_headers", "response_body", "response_time_ms",
   "ip_address", "user_id", "user_agent", "session_id", "extra_data"]

/-- Django's `Model.objects.create(**kwargs)`: an unexpected keyword argument
makes `Model.__init__` raise `TypeError` before any database interaction;
otherwise the write's outcome is the store's (`db_outcome`: `.ok` on success,
`.error` on an unreachable store / constraint violation / ...). -/
def djangoCreate (fields : List String) (kwargs : List String)
    (db_outcome : Except PyExc Unit) : Except PyExc Unit :=
  if kwargs.all (fun k => fields.contains k) then db_outcome
  else .error .typeError

/-- The keyword-argument names of the synchronous
`RequestLog.objects.create(...)` call in `_create_log_entry` (lines 245-257);
the same names are used by the `**log_data` create call of the Celery task
(tasks.py lines 69-82 and 96). -/
def sync_kwarg_names : List String :=
  ["method", "path", "query_params", "request_headers", "request_body", "client_ip",
   "user_id", "status_code", "response_headers", "response_body", "execution_time"]

/-! ### The Interception Pipeline (middleware `__call__` and dispatch) -/

/-- The skip rule of `__call__` (lines 63-70): excluded when the path starts
with any configured path or ends with any configured extension. -/
def should_skip (cfg : Config) (path : String) : Bool :=
  cfg.exclude_paths.any (fun p => py_startswith path p) ||
  cfg.exclude_extensions.any (fun e => py_endswith path e)

/-- A structured field as handed to the Celery transport: the middleware's
async branch passes the captured dicts themselves (a `dict` value), while a
serialized field would be a `str` value. -/
inductive StrOrDict where
  | str (s : String)
  | dict (d : Dict)

/-- Whether a transported field is already in string wire form. -/
def isWireStr : StrOrDict → Bool
  | .str _ => true
  | .dict _ => false

/-- The `json.dumps` conversion the worker task applies after dequeue
(tasks.py lines 60-68: `if isinstance(x, dict): x = json.dumps(x)`). -/
def task_wire : StrOrDict → String
  | .str s => s
  | .dict d => jsonDumpsDict d

/-- The arguments of one `create_request_log_entry.delay(...)` call
(middleware lines 229-241).  The wall-clock `execution_time` float is outside
the embedding (real time); its keyword *name* still appears in
`sync_kwarg_names`. -/
structure TaskArgs where
  method : String
  path : String
  query_params : StrOrDict
  request_headers : StrOrDict
  request_body : String
  client_ip : String
  user_id : Option String
  status_code : Nat
  response_headers : StrOrDict
  response_body : String

/-- The exception classes caught by `_create_log_entry`'s
`except (ValueError, TypeError, AttributeError, KeyError)` (line 259);
`json.JSONDecodeError` is a `ValueError` subclass and hence also caught. -/
def create_log_entry_caught : PyExc → Bool
  | .valueError => true
  | .typeError => true
  | .attributeError => true
  | .keyError => true
  | .jsonDecodeError => true
  | _ => false

/-- The observable actions of one `_create_log_entry` run: Celery enqueues,
synchronous create attempts (kwarg names with the call's outcome), and
whether line 260's `logger.error` fired. -/
structure DispatchResult where
  enqueued : List TaskArgs := []
  sync_attempts : List (List String × Except PyExc Unit) := []
  error_logged : Bool := false

/-- `RequestLogMiddleware._create_log_entry` (lines 203-260).  `request_data`
or `response_data` is `none` when the corresponding capture step failed and
its exception was discarded; subscripting `None` then raises `TypeError`
inside the `try`, which the `except` at line 259 catches and logs, so no
record is dispatched.  In synchronous mode the create call's kwarg names are
checked against the model's fields (Django raises `TypeError` on a mismatch);
a caught exception is logged, an uncaught one propagates to the step's
fail-open wrapper and is discarded there. -/
def _create_log_entry (cfg : Config) (sync_db : Except PyExc Unit) (req : Request)
    (request_data : Option RequestData) (response_data : Option ResponseData) :
    DispatchResult :=
  match request_data, response_data with
  | some rd, some pd =>
    if cfg.use_async_logging then
      { enqueued :=
          [{ method := rd.method
             path := rd.path
             query_params := .dict rd.query_params
             request_headers := .dict rd.headers
             request_body := rd.body.getD ""
             client_ip := rd.client_ip
             user_id := req.user_id
             status_code := pd.status_code
             response_headers := .dict pd.headers
             response_body := pd.content.getD "" }] }
    else
      match djangoCreate requestLogFields sync_kwarg_names sync_db with
      | .ok _ => { sync_attempts := [(sync_kwarg_names, .ok ())] }
      | .error e =>
        { sync_attempts := [(sync_kwarg_names, .error e)]
          error_logged := create_log_entry_caught e }
  | _, _ => { error_logged := true }

/-- Failure environment for the audit-only steps: `none` means the step runs
normally, `some e` means an exception `e` is raised somewhere inside the step
(and, per the fail-open wrapper, caught and discarded). -/
structure StepFaults where
  capture_request_fault : Option PyExc := none
  capture_response_fault : Option PyExc := none
  dispatch_fault : Option PyExc := none

/-- The client-visible outcome of one middleware pass. -/
inductive Outcome where
  | success (resp : Response)
  | fault (e : PyExc)

def outcomeOf : Except PyExc Response → Outcome
  | .ok r => .success r
  | .error e => .fault e

/-- Everything observable about one pipeline pass. -/
structure PipelineResult where
  outcome : Outcome
  captured_request : Option RequestData
  captured_response : Option ResponseData
  enqueued : List TaskArgs
  sync_attempts : List (List String × Except PyExc Unit)
  error_logged : Bool

/-- `RequestLogMiddleware.__call__` (lines 52-90).
Modelled from the spec: `email_utils.capture_exception_and_notify` (the
decorator on `__call__` and on each step) is not under `src/`; per §4.3 and
§7 an exception raised inside a capture or dispatch step is caught, logged
and discarded (the step yields nothing), while a downstream-handler fault
propagates to the caller unchanged.  The `__call__` body itself is from the
source: skip check, request capture, downstream call (with *no* surrounding
`try`, so a downstream fault skips response capture and dispatch), response
capture, dispatch, return. -/
def runPipeline (cfg : Config) (faults : StepFaults) (sync_db : Except PyExc Unit)
    (handler : Request → Except PyExc Response) (req : Request) : PipelineResult :=
  if should_skip cfg req.path then
    { outcome := outcomeOf (handler req)
      captured_request := none
      captured_response := none
      enqueued := []
      sync_attempts := []
      error_logged := false }
  else
    let request_data : Option RequestData :=
      match faults.capture_request_fault with
      | some _ => none
      | none => some (_capture_request_data cfg req)
    match handler req with
    | .error e =>
      { outcome := .fault e
        captured_request := request_data
        captured_response := none
        enqueued := []
        sync_attempts := []
        error_logged := false }
    | .ok resp =>
      let response_data : Option ResponseData :=
        match faults.capture_response_fault with
        | some _ => none
        | none => some (_capture_response_data cfg resp)
      let d : DispatchResult :=
        match faults.dispatch_fault with
        | some _ => {}
        | none => _create_log_entry cfg sync_db req request_data response_data
      { outcome := .success resp
        captured_request := request_data
        captured_response := response_data
        enqueued := d.enqueued
        sync_attempts := d.sync_attempts
        error_logged := d.error_logged }

/-! ### The Persistence Dispatcher worker (tasks.py) -/

/-- Django/Celery settings read by the task (tasks.py lines 56-57) and the
middleware (`AUDIT_LOGS_ASYNC_LOGGING`, middleware line 48). -/
structure Settings where
  AUDIT_LOGS_USE_MONGO : Bool := false
  AUDIT_LOGS_WRITE_TO_BOTH : Bool := false

/-- One storage backend. -/
inductive Backend where
  | mongo
  | postgres
deriving DecidableEq, Repr

/-- The store environment for one task execution: `mongo_available` is
`mongo_storage.is_available()`, `mongo_write_ok` the boolean returned by
`mongo_storage.create_request_log(...)` (call sites in tasks.py lines 85-90;
mongo_storage.py itself is not under `src/`, so the backend is abstracted by
the boolean interface those call sites use), and `pg_result` the outcome the
PostgreSQL store would give a well-formed create call (`.error
.operationalError` models an unreachable store, `.error .integrityError` a
constraint violation). -/
structure StoreEnv where
  mongo_available : Bool
  mongo_write_ok : Bool
  pg_result : Except PyExc Unit

/-- The Celery retry bound declared on the task:
`@shared_task(bind=True, max_retries=3, default_retry_delay=60)`. -/
def max_retries : Nat := 3

/-- The fixed retry delay (seconds) declared on the task. -/
def default_retry_delay : Nat := 60

/-- The exception classes caught by the task's
`except (RequestLog.DoesNotExist, RequestLog.MultipleObjectsReturned,
ValueError, TypeError, json.JSONDecodeError)` (tasks.py lines 99-100). -/
def task_caught : PyExc → Bool
  | .doesNotExist => true
  | .multipleObjectsReturned => true
  | .valueError => true
  | .typeError => true
  | .jsonDecodeError => true
  | _ => false

/-- Outcome of one task execution: normal return, `self.retry(exc=exc)`
requested from the `except` clause, or an uncaught exception propagating out
of the task. -/
inductive TaskOutcome where
  | success
  | retryRequested (e : PyExc)
  | propagated (e : PyExc)
deriving DecidableEq, Repr

/-- The observables of one task execution. -/
structure TaskResult where
  persisted : List Backend
  error_logged : Bool
  outcome : TaskOutcome
deriving DecidableEq, Repr

/-- `tasks.create_request_log_entry` (tasks.py lines 24-103), one execution.
Reads the dual-backend settings; writes to MongoDB when
`(use_mongo or write_to_both) and mongo_storage.is_available()`; then writes
to PostgreSQL when `not use_mongo or write_to_both or (use_mongo and not
mongo_success)`.  The PostgreSQL write is `RequestLog.objects.create(
**log_data)` whose keyword names are `sync_kwarg_names`; a raised exception
in the caught set triggers `logger.error` plus `self.retry(exc=exc)`, any
other exception propagates out of the task. -/
def create_request_log_entry (settings : Settings) (env : StoreEnv) : TaskResult :=
  let use_mongo := settings.AUDIT_LOGS_USE_MONGO
  let write_to_both := settings.AUDIT_LOGS_WRITE_TO_BOTH
  let mongo_attempted := (use_mongo || write_to_both) && env.mongo_available
  let mongo_success := mongo_attempted && env.mongo_write_ok
  let mongoPersisted : List Backend := if mongo_success then [.mongo] else []
  if !use_mongo || write_to_both || (use_mongo && !mongo_success) then
    match djangoCreate requestLogFields sync_kwarg_names env.pg_result with
    | .ok _ =>
      { persisted := mongoPersisted ++ [.postgres], error_logged := false, outcome := .success }
    | .error e =>
      if task_caught e then
        { persisted := mongoPersisted, error_logged := true, outcome := .retryRequested e }
      else
        { persisted := mongoPersisted, error_logged := false, outcome := .propagated e }
  else
    { persisted := mongoPersisted, error_logged := false, outcome := .success }

/-- Final outcome of a task under the Celery retry driver. -/
inductive FinalOutcome where
  | success
  | dropped (e : PyExc)
  | propagated (e : PyExc)
deriving DecidableEq, Repr

/-- The Celery retry driver: run the task; on `self.retry` re-run while
retries remain; once `max_retries` is exhausted the retry call re-raises and
the record is dropped.  Returns the records persisted across all executions,
the number of `logger.error` emissions, and the final outcome. -/
def celeryRun (settings : Settings) (env : StoreEnv) :
    Nat → List Backend × Nat × FinalOutcome
  | 0 =>
    let r := create_request_log_entry settings env
    match r.outcome with
    | .success => (r.persisted, if r.error_logged then 1 else 0, .success)
    | .propagated e => (r.persisted, if r.error_logged then 1 else 0, .propagated e)
    | .retryRequested e => (r.persisted, if r.error_logged then 1 else 0, .dropped e)
  | retries_left + 1 =>
    let r := create_request_log_entry settings env
    match r.outcome with
    | .success => (r.persisted, if r.error_logged then 1 else 0, .success)
    | .propagated e => (r.persisted, if r.error_logged then 1 else 0, .propagated e)
    | .retryRequested _ =>
      let rest := celeryRun settings env retries_left
      (r.persisted ++ rest.1, (if r.error_logged then 1 else 0) + rest.2.1, rest.2.2)

/-- A task's whole life: the first execution plus up to `max_retries`
retries. -/
def celeryExecute (settings : Settings) (env : StoreEnv) :
    List Backend × Nat × FinalOutcome :=
  celeryRun settings env max_retries

/-! ### Concrete evaluation points -/

/-- A default middleware configuration (all `__init__` defaults). -/
def cfgEx : Config := {}

/-- The default configuration with synchronous logging selected. -/
def cfgSync : Config := { use_async_logging := false }

/-- The default configuration with a small body limit. -/
def cfgSmall : Config := { max_body_length := 5 }

/-- A minimal non-skipped GET request. -/
def reqEx : Request :=
  { method := "GET", path := "/api/pay", query_params := [], headers := [],
    body := "", jsonBody := none, post_dict := none, content_type := "",
    client_ip := "127.0.0.1", user_id := none }

/-- A request carrying an `Authorization` header the way Django presents it
(title-cased name). -/
def reqAuth : Request := { reqEx with headers := [("Authorization", "secret-token")] }

/-- A request whose `Authorization` header name happens to be lower-cased. -/
def reqAuthLower : Request := { reqEx with headers := [("authorization", "tok")] }

/-- A POST request with an invalid-JSON long body (twenty characters). -/
def longA : String := "aaaaaaaaaaaaaaaaaaaa"

def reqLong : Request :=
  { reqEx with method := "POST", content_type := "application/json", body := longA }

/-- A request on an excluded path. -/
def reqStatic : Request := { reqEx with path := "/static/app.css" }

/-- A plain 200 response. -/
def respEx : Response :=
  { status_code := 200, headers := [], content := none, jsonContent := none }

/-- A downstream handler that succeeds with `respEx`. -/
def handlerOk : Request → Except PyExc Response := fun _ => .ok respEx

/-- A downstream handler that raises. -/
def handlerBoom : Request → Except PyExc Response := fun _ => .error (.other "boom")

/-- Dual-backend settings with MongoDB as the primary store. -/
def settingsMongoPrimary : Settings := { AUDIT_LOGS_USE_MONGO := true }

/-- The default (PostgreSQL-only) settings. -/
def defaultSettings : Settings := {}

/-- MongoDB unavailable, PostgreSQL reachable. -/
def envMongoDownPgUp : StoreEnv :=
  { mongo_available := false, mongo_write_ok := false, pg_result := .ok () }

/-- PostgreSQL unreachable (the store would raise `OperationalError`). -/
def envPgDown : StoreEnv :=
  { mongo_available := false, mongo_write_ok := false, pg_result := .error .operationalError }

/-- The headers property claim C3 asserts of every captured headers map: all
names lower-cased, and every entry whose name matches a configured sensitive
key case-insensitively holds the mask token. -/
def headers_lowercased_and_masked (keys : List String) (h : Dict) : Bool :=
  h.all (fun kv => py_lower kv.1 == kv.1) &&
  h.all (fun kv => !isSensitive keys kv.1 || kv.2 == maskToken)

/-! ### Theorems -/

/-- The pipeline's client-visible outcome is always the downstream handler's
own outcome (helper shared by several claims). -/
theorem runPipeline_outcome (cfg : Config) (faults : StepFaults)
    (sync_db : Except PyExc Unit) (handler : Request → Except PyExc Response)
    (req : Request) :
    (runPipeline cfg faults sync_db handler req).outcome = outcomeOf (handler req) := by
  unfold runPipeline
  by_cases h : should_skip cfg req.path
  · simp [h]
  · simp only [h, Bool.false_eq_true, if_false]
    cases hh : handler req <;> simp [hh, outcomeOf]

/-- Claim C1 (fail-open noninterference): for every request, every
configuration, every downstream handler outcome and every failure valuation
of the capture/masking/dispatch steps, the pipeline returns to the client
exactly the outcome the handler alone would have produced (the outcome of the
run with audit capture disabled); exceptions inside the audit steps are
discarded and never alter the client-visible result. -/
theorem fail_open_noninterference (cfg : Config) (faults : StepFaults)
    (sync_db : Except PyExc Unit) (handler : Request → Except PyExc Response)
    (req : Request) :
    (runPipeline cfg faults sync_db handler req).outcome = outcomeOf (handler req) :=
  runPipeline_outcome cfg faults sync_db handler req

/-- Claim C2 counterexample: a non-skipped request whose downstream handler
raises produces *zero* dispatched audit records (no enqueue, no create
attempt) — not the claimed exactly-one record with a synthetic 500 status —
while the fault propagates to the caller. -/
theorem downstream_fault_record_counterexample :
    should_skip cfgEx reqEx.path = false ∧
    (runPipeline cfgEx {} (.ok ()) handlerBoom reqEx).enqueued = [] ∧
    (runPipeline cfgEx {} (.ok ()) handlerBoom reqEx).sync_attempts = [] ∧
    (runPipeline cfgEx {} (.ok ()) handlerBoom reqEx).outcome = .fault (.other "boom") :=
  ⟨by decide, rfl, rfl, rfl⟩

/-- Claim C2 amended: for every non-skipped request whose downstream handler
raises an unhandled exception, the pipeline dispatches *no* audit record (the
`__call__` body has no `try` around the downstream call, so response capture
and dispatch are skipped) and the original exception propagates to the caller
unchanged. -/
theorem downstream_fault_no_dispatch (cfg : Config) (faults : StepFaults)
    (sync_db : Except PyExc Unit) (handler : Request → Except PyExc Response)
    (req : Request) (e : PyExc)
    (hskip : should_skip cfg req.path = false) (hh : handler req = .error e) :
    (runPipeline cfg faults sync_db handler req).outcome = .fault e ∧
    (runPipeline cfg faults sync_db handler req).enqueued = [] ∧
    (runPipeline cfg faults sync_db handler req).sync_attempts = [] ∧
    (runPipeline cfg faults sync_db handler req).captured_response = none := by
  unfold runPipeline
  simp [hskip, hh]

/-- Witness for the amended claim C2 at a concrete input. -/
theorem downstream_fault_no_dispatch_witness :
    (runPipeline cfgEx {} (.ok ()) handlerBoom reqEx).outcome = .fault (.other "boom") ∧
    (runPipeline cfgEx {} (.ok ()) handlerBoom reqEx).enqueued = [] := by
  have h := downstream_fault_no_dispatch cfgEx {} (.ok ()) handlerBoom reqEx
    (.other "boom") (by decide) rfl
  exact ⟨h.1, h.2.1⟩

/-- Claim C5 (skip rules): a request whose path starts with a configured
excluded path, ends with a configured excluded extension, or literally equals
a configured excluded path (equality implies the `startswith` check fires) is
passed straight to the downstream handler with no capture and no persistence
call of any kind. -/
theorem skip_rules (cfg : Config) (faults : StepFaults) (sync_db : Except PyExc Unit)
    (handler : Request → Except PyExc Response) (req : Request)
    (h : (∃ p ∈ cfg.exclude_paths, py_startswith req.path p = true) ∨
         (∃ x ∈ cfg.exclude_extensions, py_endswith req.path x = true) ∨
         req.path ∈ cfg.exclude_paths) :
    runPipeline cfg faults sync_db handler req =
      { outcome := outcomeOf (handler req), captured_request := none,
        captured_response := none, enqueued := [], sync_attempts := [],
        error_logged := false } := by
  have hs : should_skip cfg req.path = true := by
    unfold should_skip
    rcases h with ⟨p, hp, hsw⟩ | ⟨x, hx, hsw⟩ | hmem
    · exact Bool.or_eq_true _ _ |>.mpr (Or.inl (List.any_eq_true.mpr ⟨p, hp, hsw⟩))
    · exact Bool.or_eq_true _ _ |>.mpr (Or.inr (List.any_eq_true.mpr ⟨x, hx, hsw⟩))
    · refine Bool.or_eq_true _ _ |>.mpr (Or.inl (List.any_eq_true.mpr ⟨req.path, hmem, ?_⟩))
      unfold py_startswith
      exact List.isPrefixOf_iff_prefix.mpr (List.prefix_refl _)
  unfold runPipeline
  simp [hs]

/-- Witness for claim C5 at a concrete excluded path. -/
theorem skip_rules_witness :
    runPipeline cfgEx {} (.ok ()) handlerOk reqStatic =
      { outcome := outcomeOf (handlerOk reqStatic), captured_request := none,
        captured_response := none, enqueued := [], sync_attempts := [],
        error_logged := false } :=
  skip_rules cfgEx {} (.ok ()) handlerOk reqStatic
    (Or.inl ⟨"/static/", by decide, by decide⟩)

/-- Claim C6 (code bug): with dual-backend mode enabled (MongoDB primary),
MongoDB unavailable and PostgreSQL perfectly reachable, the fallback
PostgreSQL write still persists nothing: the `RequestLog.objects.create(
**log_data)` call passes keyword names (`request_headers`, `request_body`,
`client_ip`, `execution_time`) that are not `RequestLog` fields, so it raises
`TypeError` before reaching the store, the task retries and finally drops the
record — zero records persisted, the commit never succeeds. -/
theorem dual_backend_fallback_bug :
    create_request_log_entry settingsMongoPrimary envMongoDownPgUp =
      { persisted := [], error_logged := true, outcome := .retryRequested .typeError } ∧
    celeryExecute settingsMongoPrimary envMongoDownPgUp =
      ([], 1 + max_retries, .dropped .typeError) ∧
    envMongoDownPgUp.pg_result = .ok () :=
  ⟨rfl, rfl, rfl⟩

/-- Claim C7 (bounded retry then drop): in asynchronous (PostgreSQL-only)
mode, for every store environment in which persistence fails, the write is
retried exactly `max_retries = 3` times (with the fixed declared delay), an
error-level log is emitted on every attempt, the record is finally dropped
with zero records persisted, and no persistence error ever reaches the
request path — the pipeline's client-visible outcome is always the handler's
own outcome.  (Because of the field-name mismatch of claim C10, the exception
actually retried is the `TypeError` raised by the create call itself, before
the store's own error can occur.) -/
theorem bounded_retry_then_drop (env : StoreEnv) (e : PyExc)
    (hpg : env.pg_result = .error e) :
    (celeryExecute defaultSettings env).1 = [] ∧
    (celeryExecute defaultSettings env).2.1 = 1 + max_retries ∧
    (celeryExecute defaultSettings env).2.2 = .dropped .typeError ∧
    max_retries = 3 ∧ default_retry_delay = 60 ∧
    (∀ (cfg : Config) (faults : StepFaults) (sync_db : Except PyExc Unit)
       (handler : Request → Except PyExc Response) (req : Request),
       (runPipeline cfg faults sync_db handler req).outcome = outcomeOf (handler req)) :=
  ⟨rfl, rfl, rfl, rfl, rfl, runPipeline_outcome⟩

/-- Witness for claim C7 with an unreachable store. -/
theorem bounded_retry_then_drop_witness :
    (celeryExecute defaultSettings envPgDown).1 = [] ∧
    (celeryExecute defaultSettings envPgDown).2.2 = .dropped .typeError := by
  have h := bounded_retry_then_drop envPgDown .operationalError rfl
  exact ⟨h.1, h.2.2.1⟩

/-- Claim C8 counterexample: a concrete asynchronous run enqueues exactly one
task whose structured fields (`query_params`, `request_headers`,
`response_headers`) are still dicts, not serialized strings — serialization
to the wire form happens only inside the worker after dequeue, contradicting
the claim that it happens before enqueue. -/
theorem serialize_before_enqueue_counterexample :
    (runPipeline cfgEx {} (.ok ()) handlerOk reqEx).enqueued.length = 1 ∧
    ((runPipeline cfgEx {} (.ok ()) handlerOk reqEx).enqueued.all
      (fun a => isWireStr a.query_params && isWireStr a.request_headers &&
                isWireStr a.response_headers)) = false :=
  ⟨rfl, rfl⟩

/-- Claim C8 amended: in asynchronous mode the structured fields are handed
to the task queue as dicts (unserialized), and the worker task serializes a
dict field to its JSON string wire form after dequeue, before the store
write. -/
theorem serialize_after_dequeue (cfg : Config) (sync_db : Except PyExc Unit)
    (handler : Request → Except PyExc Response) (req : Request) (resp : Response)
    (hasync : cfg.use_async_logging = true)
    (hskip : should_skip cfg req.path = false)
    (hh : handler req = .ok resp) :
    ((runPipeline cfg {} sync_db handler req).enqueued.all
      (fun a => !isWireStr a.query_params && !isWireStr a.request_headers &&
                !isWireStr a.response_headers)) = true ∧
    (∀ d : Dict, task_wire (.dict d) = jsonDumpsDict d) := by
  constructor
  · unfold runPipeline
    simp [hskip, hh, _create_log_entry, hasync, isWireStr]
  · intro d; rfl

/-- Witness for the amended claim C8 at a concrete input. -/
theorem serialize_after_dequeue_witness :
    ((runPipeline cfgEx {} (.ok ()) handlerOk reqEx).enqueued.all
      (fun a => !isWireStr a.query_params && !isWireStr a.request_headers &&
                !isWireStr a.response_headers)) = true := by
  have h := serialize_after_dequeue cfgEx (.ok ()) handlerOk reqEx respEx rfl (by decide) rfl
  exact h.1

/-- Claim C10: the synchronous-mode `RequestLog.objects.create` call passes
keyword names (`request_headers`, `request_body`, `client_ip`,
`execution_time`) that are not fields of the `RequestLog` model, so the call
always raises `TypeError`; the exception is in `_create_log_entry`'s caught
set and is logged, so no audit record is ever persisted in synchronous mode
while the response is still returned to the client. -/
theorem sync_create_always_fails (cfg : Config) (sync_db : Except PyExc Unit)
    (handler : Request → Except PyExc Response) (req : Request) (resp : Response)
    (hsync : cfg.use_async_logging = false)
    (hskip : should_skip cfg req.path = false)
    (hh : handler req = .ok resp) :
    (runPipeline cfg {} sync_db handler req).sync_attempts
        = [(sync_kwarg_names, .error .typeError)] ∧
    (runPipeline cfg {} sync_db handler req).error_logged = true ∧
    (runPipeline cfg {} sync_db handler req).enqueued = [] ∧
    (runPipeline cfg {} sync_db handler req).outcome = .success resp ∧
    ("request_headers" ∈ sync_kwarg_names ∧ "request_headers" ∉ requestLogFields) ∧
    ("request_body" ∈ sync_kwarg_names ∧ "request_body" ∉ requestLogFields) ∧
    ("client_ip" ∈ sync_kwarg_names ∧ "client_ip" ∉ requestLogFields) ∧
    ("execution_time" ∈ sync_kwarg_names ∧ "execution_time" ∉ requestLogFields) := by
  have hcond : (sync_kwarg_names.all (fun k => requestLogFields.contains k)) = false := by
    decide
  have hdc : djangoCreate requestLogFields sync_kwarg_names sync_db = .error .typeError := by
    unfold djangoCreate
    rw [hcond]
    simp
  refine ⟨?_, ?_, ?_, ?_, by decide, by decide, by decide, by decide⟩ <;>
    · unfold runPipeline
      simp [hskip, hh, _create_log_entry, hsync, hdc, create_log_entry_caught]

/-- Witness for claim C10 at a concrete input. -/
theorem sync_create_always_fails_witness :
    (runPipeline cfgSync {} (.ok ()) handlerOk reqEx).sync_attempts
        = [(sync_kwarg_names, .error .typeError)] ∧
    (runPipeline cfgSync {} (.ok ()) handlerOk reqEx).outcome = .success respEx := by
  have h := sync_create_always_fails cfgSync (.ok ()) handlerOk reqEx respEx rfl (by decide) rfl
  exact ⟨h.1, h.2.2.2.1⟩

/-! ### Dict and header-masking lemmas (claim C3) -/

theorem dictMem_eq_keys (d : Dict) (k : String) :
    dictMem d k = (d.map Prod.fst).any (fun x => x == k) := by
  induction d with
  | nil => rfl
  | cons kv d ih =>
    unfold dictMem at ih ⊢
    simp only [List.map_cons, List.any_cons]
    rw [ih]

theorem find?_update_self (k v : String) :
    ∀ d : Dict, dictMem d k = true →
      (d.map (fun kv => if kv.1 == k then (k, v) else kv)).find? (fun kv => kv.1 == k)
        = some (k, v) := by
  intro d
  induction d with
  | nil => intro h; simp [dictMem] at h
  | cons kv d ih =>
    intro h
    cases hk : (kv.1 == k) with
    | true =>
      simp only [List.map_cons, hk, if_true]
      exact List.find?_cons_of_pos _ (by simp)
    | false =>
      have h' : dictMem d k = true := by
        unfold dictMem at h
        simp only [List.any_cons, hk, Bool.false_or] at h
        exact h
      simp only [List.map_cons, hk, if_false, Bool.false_eq_true]
      rw [List.find?_cons_of_neg _ (by simp [hk])]
      exact ih h'

theorem find?_update_ne (k v k' : String) (hne : k' ≠ k) :
    ∀ d : Dict,
      (d.map (fun kv => if kv.1 == k then (k, v) else kv)).find? (fun kv => kv.1 == k')
        = d.find? (fun kv => kv.1 == k') := by
  intro d
  have hb : (k == k') = false := by
    simp only [beq_eq_false_iff_ne]
    exact fun h => hne h.symm
  induction d with
  | nil => rfl
  | cons kv d ih =>
    cases hk : (kv.1 == k) with
    | true =>
      have hkv : kv.1 = k := by simpa using hk
      simp only [List.map_cons, hk, if_true]
      rw [List.find?_cons_of_neg _ (by simp [hb]),
          List.find?_cons_of_neg _ (by simp [hkv, hb]), ih]
    | false =>
      simp only [List.map_cons, hk, if_false, Bool.false_eq_true]
      cases hp : (kv.1 == k') with
      | true =>
        rw [List.find?_cons_of_pos _ (by simp [hp]), List.find?_cons_of_pos _ (by simp [hp])]
      | false =>
        rw [List.find?_cons_of_neg _ (by simp [hp]), List.find?_cons_of_neg _ (by simp [hp]), ih]

theorem dictSet_keys (d : Dict) (k v : String) (h : dictMem d k = true) :
    (dictSet d k v).map Prod.fst = d.map Prod.fst := by
  unfold dictSet
  simp only [h, if_true]
  rw [List.map_map]
  apply List.map_congr_left
  intro kv _
  show (if (kv.1 == k) = true then (k, v) else kv).1 = kv.1
  cases hk : (kv.1 == k) with
  | true =>
    have hkv : kv.1 = k := by simpa using hk
    simp [hkv]
  | false => simp

theorem dictGet_dictSet_self (d : Dict) (k v : String) (h : dictMem d k = true) :
    dictGet (dictSet d k v) k = some v := by
  unfold dictGet dictSet
  simp only [h, if_true]
  rw [find?_update_self k v d h]
  rfl

theorem dictGet_dictSet_ne (d : Dict) (k v k' : String) (hne : k' ≠ k)
    (h : dictMem d k = true) :
    dictGet (dictSet d k v) k' = dictGet d k' := by
  unfold dictGet dictSet
  simp only [h, if_true]
  rw [find?_update_ne k v k' hne d]

theorem mask_headers_keys (keys : List String) :
    ∀ h : Dict, (mask_headers keys h).map Prod.fst = h.map Prod.fst := by
  induction keys with
  | nil => intro h; rfl
  | cons f ks ih =>
    intro h
    have hstep : mask_headers (f :: ks) h
        = mask_headers ks
            (if dictMem h (py_lower f) = true then dictSet h (py_lower f) maskToken else h) := rfl
    rw [hstep]
    by_cases hm : dictMem h (py_lower f) = true
    · rw [if_pos hm, ih, dictSet_keys _ _ _ hm]
    · rw [if_neg hm, ih]

theorem mask_headers_keeps_mask (keys : List String) :
    ∀ (h : Dict) (k : String), dictGet h k = some maskToken →
      dictGet (mask_headers keys h) k = some maskToken := by
  induction keys with
  | nil => intro h k hk; exact hk
  | cons f ks ih =>
    intro h k hk
    have hstep : mask_headers (f :: ks) h
        = mask_headers ks
            (if dictMem h (py_lower f) = true then dictSet h (py_lower f) maskToken else h) := rfl
    rw [hstep]
    by_cases hm : dictMem h (py_lower f) = true
    · rw [if_pos hm]
      apply ih
      by_cases hkk : k = (py_lower f)
      · subst hkk; rw [dictGet_dictSet_self _ _ _ hm]
      · rw [dictGet_dictSet_ne _ _ _ _ hkk hm]; exact hk
    · rw [if_neg hm]; exact ih h k hk

theorem mask_headers_masks (keys : List String) :
    ∀ (h : Dict) (f : String), f ∈ keys → dictMem h (py_lower f) = true →
      dictGet (mask_headers keys h) (py_lower f) = some maskToken := by
  induction keys with
  | nil => intro h f hf; cases hf
  | cons g ks ih =>
    intro h f hf hm
    have hstep : mask_headers (g :: ks) h
        = mask_headers ks
            (if dictMem h (py_lower g) = true then dictSet h (py_lower g) maskToken else h) := rfl
    rw [hstep]
    rcases List.mem_cons.mp hf with hfg | hfks
    · subst hfg
      rw [if_pos hm]
      exact mask_headers_keeps_mask ks _ _ (dictGet_dictSet_self _ _ _ hm)
    · by_cases hg : dictMem h (py_lower g) = true
      · rw [if_pos hg]
        apply ih _ f hfks
        rw [dictMem_eq_keys, dictSet_keys _ _ _ hg, ← dictMem_eq_keys]
        exact hm
      · rw [if_neg hg]; exact ih h f hfks hm

/-- Claim C3 counterexample: Django presents header names title-cased
(`Authorization`), the masking loop only tests the literally lower-cased
key, so the captured map keeps the original name (not lower-cased) together
with the raw secret value even though the key matches the configured
sensitive field `authorization` case-insensitively. -/
theorem header_masking_counterexample :
    (_capture_request_data cfgEx reqAuth).headers = [("Authorization", "secret-token")] ∧
    headers_lowercased_and_masked cfgEx.sensitive_fields
      ((_capture_request_data cfgEx reqAuth).headers) = false ∧
    isSensitive cfgEx.sensitive_fields "Authorization" = true :=
  ⟨rfl, by decide, by decide⟩

/-- Claim C3 amended: captured request/response header maps keep the header
names verbatim (no lower-casing), and for every configured sensitive key
whose *lower-cased* form literally occurs as a map key, the stored value is
the mask token; a sensitive header stored under any other casing keeps its
original value. -/
theorem header_masking_amended (cfg : Config) (req : Request) (resp : Response)
    (f : String) (hf : f ∈ cfg.sensitive_fields) :
    ((_capture_request_data cfg req).headers.map Prod.fst = req.headers.map Prod.fst) ∧
    ((_capture_response_data cfg resp).headers.map Prod.fst = resp.headers.map Prod.fst) ∧
    (dictMem req.headers (py_lower f) = true →
      dictGet (_capture_request_data cfg req).headers (py_lower f) = some maskToken) ∧
    (dictMem resp.headers (py_lower f) = true →
      dictGet (_capture_response_data cfg resp).headers (py_lower f) = some maskToken) := by
  refine ⟨mask_headers_keys _ _, mask_headers_keys _ _, ?_, ?_⟩
  · exact fun hm => mask_headers_masks _ _ _ hf hm
  · exact fun hm => mask_headers_masks _ _ _ hf hm

/-- Witness for the amended claim C3: a literally lower-cased sensitive
header is masked in the captured map. -/
theorem header_masking_amended_witness :
    dictGet ((_capture_request_data cfgEx reqAuthLower).headers) (py_lower "authorization")
      = some maskToken := by
  have h := header_masking_amended cfgEx reqAuthLower respEx "authorization" (by decide)
  exact h.2.2.1 (by decide)

/-- Claim C4 (truncation after masking): the stored body is always the
truncation of the *masked* body (masking sees the full body first); when the
masked body exceeds the configured maximum the stored body is its first
`max_body_length` characters followed by the fixed marker, so its length is
`max_body_length + truncation_marker.length` and its first `max_body_length`
characters agree with the masked body; a masked body within the limit is
stored unaltered. -/
theorem truncation_after_masking (cfg : Config) (req : Request) (resp : Response)
    (m : String) :
    ((masked_request_body cfg req = some m) →
      (_capture_request_data cfg req).body = some (truncate_body cfg.max_body_length m)) ∧
    ((masked_response_content cfg resp = some m) →
      (_capture_response_data cfg resp).content
        = some (truncate_body cfg.max_body_length m)) ∧
    (m.length > cfg.max_body_length →
      (truncate_body cfg.max_body_length m).length
          = cfg.max_body_length + truncation_marker.length ∧
      (truncate_body cfg.max_body_length m).data.take cfg.max_body_length
          = m.data.take cfg.max_body_length) ∧
    (¬ m.length > cfg.max_body_length → truncate_body cfg.max_body_length m = m) := by
  refine ⟨?_, ?_, ?_, ?_⟩
  · intro h
    show (masked_request_body cfg req).map (truncate_body cfg.max_body_length) = _
    rw [h]
    rfl
  · intro h
    show (masked_response_content cfg resp).map (truncate_body cfg.max_body_length) = _
    rw [h]
    rfl
  · intro hlen
    have hml : cfg.max_body_length ≤ m.data.length := le_of_lt hlen
    have hl : (m.data.take cfg.max_body_length).length = cfg.max_body_length := by
      rw [List.length_take]
      exact Nat.min_eq_left hml
    unfold truncate_body
    rw [if_pos hlen]
    constructor
    · rw [String.length_append]
      show (m.data.take cfg.max_body_length).length + truncation_marker.length = _
      rw [hl]
    · show (m.data.take cfg.max_body_length ++ truncation_marker.data).take cfg.max_body_length
          = m.data.take cfg.max_body_length
      have ht := List.take_left (m.data.take cfg.max_body_length) truncation_marker.data
      rw [hl] at ht
      exact ht
  · intro hle
    unfold truncate_body
    rw [if_neg hle]

/-- Witness for claim C4: a twenty-character masked body under a limit of
five characters is truncated to five characters plus the marker. -/
theorem truncation_after_masking_witness :
    (_capture_request_data cfgSmall reqLong).body
        = some (truncate_body cfgSmall.max_body_length longA) ∧
    (truncate_body cfgSmall.max_body_length longA).length
        = cfgSmall.max_body_length + truncation_marker.length := by
  have h := truncation_after_masking cfgSmall reqLong respEx longA
  exact ⟨h.1 (by decide), (h.2.2.1 (by decide)).1⟩

/-! ### Masking Engine idempotence (claim C9) -/

theorem maskJson_idem (keys : List String) :
    ∀ (n : Nat) (v : JValue), maskJson keys n (maskJson keys n v) = maskJson keys n v := by
  intro n
  induction n with
  | zero => intro v; rfl
  | succ n ih =>
    intro v
    cases v with
    | obj fs =>
      show maskJson keys (n + 1)
          (.obj (fs.map fun kv =>
            if isSensitive keys kv.1 then (kv.1, .str maskToken)
            else (kv.1, maskJson keys n kv.2))) = _
      show JValue.obj _ = JValue.obj _
      rw [List.map_map]
      refine congrArg JValue.obj (List.map_congr_left ?_)
      intro kv _
      show (if isSensitive keys
              (if isSensitive keys kv.1 = true then (kv.1, JValue.str maskToken)
               else (kv.1, maskJson keys n kv.2)).1 = true
            then _ else _) = _
      cases hs : isSensitive keys kv.1 with
      | true => simp [hs]
      | false => simp [hs, ih kv.2]
    | arr xs =>
      show JValue.arr ((xs.map (maskJson keys n)).map (maskJson keys n)) = _
      rw [List.map_map]
      refine congrArg JValue.arr (List.map_congr_left ?_)
      intro x _
      show maskJson keys n (maskJson keys n x) = maskJson keys n x
      exact ih x
    | null => rfl
    | bool b => rfl
    | num m => rfl
    | str s => rfl

theorem splitFirst_of_not_mem (sep : Char) :
    ∀ cs : List Char, sep ∉ cs → splitFirst sep cs = none := by
  intro cs
  induction cs with
  | nil => intro _; rfl
  | cons c cs ih =>
    intro h
    have hc : ¬ c = sep := fun hc => h (List.mem_cons.mpr (Or.inl hc.symm))
    unfold splitFirst
    rw [if_neg hc, ih (fun hm => h (List.mem_cons_of_mem _ hm))]

theorem not_mem_of_splitFirst_eq_none (sep : Char) :
    ∀ cs : List Char, splitFirst sep cs = none → sep ∉ cs := by
  intro cs
  induction cs with
  | nil => intro _ hm; cases hm
  | cons c cs ih =>
    intro h hm
    unfold splitFirst at h
    by_cases hc : c = sep
    · rw [if_pos hc] at h; cases h
    · rw [if_neg hc] at h
      rcases List.mem_cons.mp hm with h1 | h2
      · exact hc h1.symm
      · cases hsp : splitFirst sep cs with
        | none => exact ih hsp h2
        | some kv =>
          obtain ⟨k0, v0⟩ := kv
          rw [hsp] at h
          cases h

theorem splitFirst_append (sep : Char) (rest : List Char) :
    ∀ k : List Char, sep ∉ k → splitFirst sep (k ++ sep :: rest) = some (k, rest) := by
  intro k
  induction k with
  | nil =>
    intro _
    show splitFirst sep (sep :: rest) = some ([], rest)
    unfold splitFirst
    rw [if_pos rfl]
  | cons c k ih =>
    intro h
    have hc : ¬ c = sep := fun hc => h (List.mem_cons.mpr (Or.inl hc.symm))
    show splitFirst sep (c :: (k ++ sep :: rest)) = some (c :: k, rest)
    unfold splitFirst
    rw [if_neg hc, ih (fun hm => h (List.mem_cons_of_mem _ hm))]

theorem splitFirst_eq (sep : Char) :
    ∀ (cs k v : List Char), splitFirst sep cs = some (k, v) →
      cs = k ++ sep :: v ∧ sep ∉ k := by
  intro cs
  induction cs with
  | nil => intro k v h; cases h
  | cons c cs ih =>
    intro k v h
    unfold splitFirst at h
    by_cases hc : c = sep
    · rw [if_pos hc] at h
      rw [Option.some.injEq, Prod.mk.injEq] at h
      obtain ⟨hk, hv⟩ := h
      subst hk
      subst hv
      refine ⟨?_, by simp⟩
      rw [hc]
      rfl
    · rw [if_neg hc] at h
      cases hsp : splitFirst sep cs with
      | none => rw [hsp] at h; cases h
      | some kv =>
        obtain ⟨k0, v0⟩ := kv
        rw [hsp] at h
        rw [Option.some.injEq, Prod.mk.injEq] at h
        obtain ⟨hk, hv⟩ := h
        subst hk
        subst hv
        obtain ⟨hcs, hnm⟩ := ih k0 v0 hsp
        constructor
        · rw [hcs]; rfl
        · intro hm
          rcases List.mem_cons.mp hm with h1 | h2
          · exact hc h1.symm
          · exact hnm h2

theorem splitOnChar_ne_nil (sep : Char) : ∀ cs : List Char, splitOnChar sep cs ≠ [] := by
  intro cs
  induction cs with
  | nil => simp [splitOnChar]
  | cons c cs ih =>
    unfold splitOnChar
    by_cases hc : c = sep
    · rw [if_pos hc]; simp
    · rw [if_neg hc]
      cases hsp : splitOnChar sep cs with
      | nil => simp
      | cons p ps => simp

theorem not_mem_of_mem_splitOnChar (sep : Char) :
    ∀ (cs p : List Char), p ∈ splitOnChar sep cs → sep ∉ p := by
  intro cs
  induction cs with
  | nil =>
    intro p hp
    have hp' : p = [] := by
      unfold splitOnChar at hp
      rcases List.mem_cons.mp hp with h1 | h2
      · exact h1
      · cases h2
    subst hp'
    simp
  | cons c cs ih =>
    intro p hp
    unfold splitOnChar at hp
    by_cases hc : c = sep
    · rw [if_pos hc] at hp
      rcases List.mem_cons.mp hp with h1 | h2
      · subst h1; simp
      · exact ih p h2
    · rw [if_neg hc] at hp
      cases hsp : splitOnChar sep cs with
      | nil => exact absurd hsp (splitOnChar_ne_nil sep cs)
      | cons q qs =>
        rw [hsp] at hp
        rcases List.mem_cons.mp hp with h1 | h2
        · subst h1
          intro hm
          rcases List.mem_cons.mp hm with hm1 | hm2
          · exact hc hm1.symm
          · exact ih q (by rw [hsp]; exact List.mem_cons_self q qs) hm2
        · exact ih p (by rw [hsp]; exact List.mem_cons_of_mem q h2)

theorem splitOnChar_of_not_mem (sep : Char) :
    ∀ p : List Char, sep ∉ p → splitOnChar sep p = [p] := by
  intro p
  induction p with
  | nil => intro _; rfl
  | cons c p ih =>
    intro h
    have hc : ¬ c = sep := fun hc => h (List.mem_cons.mpr (Or.inl hc.symm))
    unfold splitOnChar
    rw [if_neg hc, ih (fun hm => h (List.mem_cons_of_mem _ hm))]

theorem splitOnChar_append (sep : Char) (rest : List Char) :
    ∀ p : List Char, sep ∉ p →
      splitOnChar sep (p ++ sep :: rest) = p :: splitOnChar sep rest := by
  intro p
  induction p with
  | nil =>
    intro _
    show splitOnChar sep (sep :: rest) = [] :: splitOnChar sep rest
    conv_lhs => rw [splitOnChar]
    rw [if_pos rfl]
  | cons c p ih =>
    intro h
    have hc : ¬ c = sep := fun hc => h (List.mem_cons.mpr (Or.inl hc.symm))
    show splitOnChar sep (c :: (p ++ sep :: rest)) = (c :: p) :: splitOnChar sep rest
    conv_lhs => rw [splitOnChar]
    rw [if_neg hc, ih (fun hm => h (List.mem_cons_of_mem _ hm))]

theorem splitOnChar_joinChar (sep : Char) :
    ∀ ps : List (List Char), ps ≠ [] → (∀ p ∈ ps, sep ∉ p) →
      splitOnChar sep (joinChar sep ps) = ps := by
  intro ps
  induction ps with
  | nil => intro h _; exact absurd rfl h
  | cons p ps ih =>
    intro _ hall
    cases ps with
    | nil =>
      show splitOnChar sep (joinChar sep [p]) = [p]
      exact splitOnChar_of_not_mem sep p (hall p (List.mem_cons_self p []))
    | cons q ps' =>
      show splitOnChar sep (p ++ sep :: joinChar sep (q :: ps')) = p :: q :: ps'
      rw [splitOnChar_append sep _ p (hall p (List.mem_cons_self p _))]
      rw [ih (by simp) (fun r hr => hall r (List.mem_cons_of_mem _ hr))]

theorem mem_jsonPairChars {c : Char} {k v : List Char} (h : c ∈ jsonPairChars k v) :
    c = '"' ∨ c = ':' ∨ c ∈ k ∨ c ∈ v := by
  simp only [jsonPairChars, List.mem_append, List.mem_cons, List.mem_singleton] at h
  tauto

theorem parseJsonPair_eq :
    ∀ (p k v : List Char), parseJsonPair p = some (k, v) →
      p = jsonPairChars k v ∧ '"' ∉ k ∧ '"' ∉ v := by
  intro p k v h
  cases p with
  | nil => cases h
  | cons c rest =>
    rw [parseJsonPair] at h
    by_cases hc : c = '"'
    · rw [if_pos hc] at h
      cases hs1 : splitFirst '"' rest with
      | none => rw [hs1] at h; cases h
      | some kr =>
        obtain ⟨k0, rest1⟩ := kr
        simp only [hs1] at h
        cases rest1 with
        | nil => rw [parseJsonTail] at h; cases h
        | cons c1 rest1' =>
          cases rest1' with
          | nil => rw [parseJsonTail] at h; cases h
          | cons c2 rest2 =>
            rw [parseJsonTail] at h
            by_cases h12 : c1 = ':' ∧ c2 = '"'
            · rw [if_pos h12] at h
              cases hs2 : splitFirst '"' rest2 with
              | none => simp only [hs2] at h; cases h
              | some vt =>
                obtain ⟨v0, tail⟩ := vt
                simp only [hs2] at h
                by_cases ht : tail = []
                · rw [if_pos ht] at h
                  rw [Option.some.injEq, Prod.mk.injEq] at h
                  obtain ⟨hk, hv⟩ := h
                  subst hk
                  subst hv
                  subst ht
                  obtain ⟨hrest, hknm⟩ := splitFirst_eq '"' rest k0 (c1 :: c2 :: rest2) hs1
                  obtain ⟨hrest2, hvnm⟩ := splitFirst_eq '"' rest2 v0 [] hs2
                  obtain ⟨h1, h2⟩ := h12
                  refine ⟨?_, hknm, hvnm⟩
                  subst hc
                  subst h1
                  subst h2
                  rw [hrest, hrest2]
                  simp [jsonPairChars]
                · rw [if_neg ht] at h; cases h
            · rw [if_neg h12] at h; cases h
    · rw [if_neg hc] at h; cases h

theorem parseJsonPair_construct (k v : List Char) (hk : '"' ∉ k) (hv : '"' ∉ v) :
    parseJsonPair (jsonPairChars k v) = some (k, v) := by
  have hshape : jsonPairChars k v = '"' :: (k ++ '"' :: (':' :: '"' :: (v ++ '"' :: []))) := by
    simp [jsonPairChars]
  rw [hshape, parseJsonPair, if_pos rfl]
  have h1 : splitFirst '"' (k ++ '"' :: (':' :: '"' :: (v ++ '"' :: [])))
      = some (k, ':' :: '"' :: (v ++ '"' :: [])) :=
    splitFirst_append '"' _ k hk
  simp only [h1]
  rw [parseJsonTail, if_pos ⟨rfl, rfl⟩]
  have h2 : splitFirst '"' (v ++ '"' :: []) = some (v, []) :=
    splitFirst_append '"' [] v hv
  simp only [h2]
  simp

/-- The value `maskSegment` takes in the sensitive `key=value` case. -/
theorem maskSegment_eq_form_sens (keys : List String) (p k v : List Char)
    (hsp : splitFirst '=' p = some (k, v))
    (hs : isSensitive keys (String.mk k) = true) :
    maskSegment keys p = k ++ '=' :: maskToken.data := by
  unfold maskSegment
  simp only [hsp]
  rw [if_pos hs]

/-- `maskSegment` leaves a non-sensitive `key=value` segment unchanged. -/
theorem maskSegment_eq_form_nonsens (keys : List String) (p k v : List Char)
    (hsp : splitFirst '=' p = some (k, v))
    (hs : ¬ isSensitive keys (String.mk k) = true) :
    maskSegment keys p = p := by
  unfold maskSegment
  simp only [hsp]
  rw [if_neg hs]

/-- The value `maskSegment` takes in the sensitive `"key":"value"` case. -/
theorem maskSegment_eq_json_sens (keys : List String) (p k v : List Char)
    (hsp : splitFirst '=' p = none)
    (hjp : parseJsonPair p = some (k, v))
    (hs : isSensitive keys (String.mk k) = true) :
    maskSegment keys p = jsonPairChars k maskToken.data := by
  unfold maskSegment
  simp only [hsp, hjp]
  rw [if_pos hs]

/-- `maskSegment` leaves a non-sensitive `"key":"value"` segment unchanged. -/
theorem maskSegment_eq_json_nonsens (keys : List String) (p k v : List Char)
    (hsp : splitFirst '=' p = none)
    (hjp : parseJsonPair p = some (k, v))
    (hs : ¬ isSensitive keys (String.mk k) = true) :
    maskSegment keys p = p := by
  unfold maskSegment
  simp only [hsp, hjp]
  rw [if_neg hs]

/-- `maskSegment` leaves an unrecognized segment unchanged. -/
theorem maskSegment_eq_other (keys : List String) (p : List Char)
    (hsp : splitFirst '=' p = none)
    (hjp : parseJsonPair p = none) :
    maskSegment keys p = p := by
  unfold maskSegment
  simp only [hsp, hjp]

theorem maskToken_no_amp : '&' ∉ maskToken.data := by decide

theorem maskToken_no_eq : '=' ∉ maskToken.data := by decide

theorem maskToken_no_quote : '"' ∉ maskToken.data := by decide

theorem maskSegment_no_amp (keys : List String) (p : List Char) (h : '&' ∉ p) :
    '&' ∉ maskSegment keys p := by
  cases hsp : splitFirst '=' p with
  | some kv =>
    obtain ⟨k, v⟩ := kv
    obtain ⟨hp, _⟩ := splitFirst_eq '=' p k v hsp
    by_cases hs : isSensitive keys (String.mk k) = true
    · rw [maskSegment_eq_form_sens keys p k v hsp hs]
      intro hm
      rcases List.mem_append.mp hm with h1 | h2
      · exact h (by rw [hp]; exact List.mem_append.mpr (Or.inl h1))
      · rcases List.mem_cons.mp h2 with h3 | h4
        · exact absurd h3 (by decide)
        · exact maskToken_no_amp h4
    · rw [maskSegment_eq_form_nonsens keys p k v hsp hs]; exact h
  | none =>
    cases hjp : parseJsonPair p with
    | some kv =>
      obtain ⟨k, v⟩ := kv
      obtain ⟨hp, hknq, _⟩ := parseJsonPair_eq p k v hjp
      by_cases hs : isSensitive keys (String.mk k) = true
      · rw [maskSegment_eq_json_sens keys p k v hsp hjp hs]
        intro hm
        rcases mem_jsonPairChars hm with h1 | h2 | h3 | h4
        · exact absurd h1 (by decide)
        · exact absurd h2 (by decide)
        · refine h ?_
          rw [hp]
          simp only [jsonPairChars, List.mem_cons, List.mem_append, List.mem_singleton]
          tauto
        · exact maskToken_no_amp h4
      · rw [maskSegment_eq_json_nonsens keys p k v hsp hjp hs]; exact h
    | none => rw [maskSegment_eq_other keys p hsp hjp]; exact h

theorem maskSegment_idem (keys : List String) (p : List Char) :
    maskSegment keys (maskSegment keys p) = maskSegment keys p := by
  cases hsp : splitFirst '=' p with
  | some kv =>
    obtain ⟨k, v⟩ := kv
    obtain ⟨hp, hk⟩ := splitFirst_eq '=' p k v hsp
    by_cases hs : isSensitive keys (String.mk k) = true
    · have h1 := maskSegment_eq_form_sens keys p k v hsp hs
      rw [h1]
      have h2 : splitFirst '=' (k ++ '=' :: maskToken.data) = some (k, maskToken.data) :=
        splitFirst_append '=' _ k hk
      exact maskSegment_eq_form_sens keys _ k maskToken.data h2 hs
    · have h1 := maskSegment_eq_form_nonsens keys p k v hsp hs
      rw [h1]
      exact h1
  | none =>
    cases hjp : parseJsonPair p with
    | some kv =>
      obtain ⟨k, v⟩ := kv
      obtain ⟨hp, hknq, hvnq⟩ := parseJsonPair_eq p k v hjp
      by_cases hs : isSensitive keys (String.mk k) = true
      · have h1 := maskSegment_eq_json_sens keys p k v hsp hjp hs
        rw [h1]
        have hep : '=' ∉ p := not_mem_of_splitFirst_eq_none '=' p hsp
        have hek : '=' ∉ k := by
          intro hm
          refine hep ?_
          rw [hp]
          simp only [jsonPairChars, List.mem_cons, List.mem_append, List.mem_singleton]
          tauto
        have hout : '=' ∉ jsonPairChars k maskToken.data := by
          intro hm
          rcases mem_jsonPairChars hm with h1' | h2' | h3' | h4'
          · exact absurd h1' (by decide)
          · exact absurd h2' (by decide)
          · exact hek h3'
          · exact maskToken_no_eq h4'
        have hsp2 : splitFirst '=' (jsonPairChars k maskToken.data) = none :=
          splitFirst_of_not_mem '=' _ hout
        have hjp2 : parseJsonPair (jsonPairChars k maskToken.data)
            = some (k, maskToken.data) :=
          parseJsonPair_construct k maskToken.data hknq maskToken_no_quote
        exact maskSegment_eq_json_sens keys _ k maskToken.data hsp2 hjp2 hs
      · have h1 := maskSegment_eq_json_nonsens keys p k v hsp hjp hs
        rw [h1]
        exact h1
    | none =>
      have h1 := maskSegment_eq_other keys p hsp hjp
      rw [h1]
      exact h1

theorem maskRawChars_idem (keys : List String) (cs : List Char) :
    maskRawChars keys (maskRawChars keys cs) = maskRawChars keys cs := by
  unfold maskRawChars
  have h1 : splitOnChar '&' (joinChar '&' ((splitOnChar '&' cs).map (maskSegment keys)))
      = (splitOnChar '&' cs).map (maskSegment keys) := by
    apply splitOnChar_joinChar
    · intro hmap
      exact splitOnChar_ne_nil '&' cs (List.map_eq_nil_iff.mp hmap)
    · intro q hq
      obtain ⟨p, hp, hq'⟩ := List.mem_map.mp hq
      rw [← hq']
      exact maskSegment_no_amp keys p (not_mem_of_mem_splitOnChar '&' cs p hp)
  rw [h1, List.map_map]
  congr 1
  apply List.map_congr_left
  intro p _
  show maskSegment keys (maskSegment keys p) = maskSegment keys p
  exact maskSegment_idem keys p

theorem mask_raw_idem (keys : List String) (s : String) :
    mask_raw keys (mask_raw keys s) = mask_raw keys s := by
  show String.mk (maskRawChars keys (maskRawChars keys s.data))
      = String.mk (maskRawChars keys s.data)
  rw [maskRawChars_idem]

/-- Claim C9 (masking idempotence): for every payload, structured or raw
text, every sensitive-key set and every depth bound, applying the Masking
Engine twice equals applying it once. -/
theorem mask_idempotent (keys : List String) (depth : Nat) (x : Payload) :
    mask keys depth (mask keys depth x) = mask keys depth x := by
  cases x with
  | structured v =>
    show Payload.structured (maskJson keys depth (maskJson keys depth v))
        = Payload.structured (maskJson keys depth v)
    rw [maskJson_idem]
  | raw s =>
    show Payload.raw (mask_raw keys (mask_raw keys s)) = Payload.raw (mask_raw keys s)
    rw [mask_raw_idem]


end AuditLogger
